import Mathlib

/-!
Verification of the log4go record-dispatch, convenience entry points and
configuration loading, as a shallow embedding in Lean.

Go strings are embedded as `List Char`; Go `int` as `Int`; fallible or
process-terminating paths as `Option`.  Functions present in the repository
sources are translated from those sources; functions of the repository that
are only declared or called there (the core `Logger`/`Filter` dispatch file)
are modelled from the specification and carry a doc comment saying so.
-/

set_option maxHeartbeats 1000000

set_option linter.unusedVariables false

set_option synthInstance.maxHeartbeats 400000

namespace Log4go

/-- Modelled from the spec: the `Level` enumeration is not under src/.  The
spec fixes an integer-ranked total order FINEST < FINE < DEBUG < TRACE <
INFO < ACCESS < WARNING < ERROR < CRITICAL (ACCESS pinned between INFO and
WARNING as the spec suggests); comparisons are numeric. -/
abbrev Level := Nat

def FINEST : Level := 0

def FINE : Level := 1

def DEBUG : Level := 2

def TRACE : Level := 3

def INFO : Level := 4

def ACCESS : Level := 5

def WARNING : Level := 6

def ERROR : Level := 7

def CRITICAL : Level := 8

/-- Character class trimmed by the configuration loader: Go
`strings.Trim(v, " \r\n")`. -/
def isTrimChar (c : Char) : Bool := c = ' ' || c = '\r' || c = '\n'

/-- Embedding of Go `strings.Trim(s, " \r\n")` on `List Char`. -/
def trimChars (s : List Char) : List Char :=
  ((s.dropWhile isTrimChar).reverse.dropWhile isTrimChar).reverse

/-- Decimal value of a digit string (most significant first), as Go's
`strconv` accumulates it. -/
def digitsVal (s : List Char) : Nat :=
  s.foldl (fun a c => 10 * a + (c.toNat - 48)) 0

/-- True when every character is a decimal digit. -/
def allDigits (s : List Char) : Bool := s.all (fun c => c.isDigit)

/-- Embedding of Go `strconv.Atoi` restricted to base 10 as the source uses
it: optional sign, then decimal digits; any syntax error yields 0 (the
source discards the returned error, and `ParseInt` returns 0 on a syntax
error). -/
def atoi (s : List Char) : Int :=
  match s with
  | [] => 0
  | c :: rest =>
    if c = '+' then (if rest ≠ [] ∧ allDigits rest then (digitsVal rest : Int) else 0)
    else if c = '-' then (if rest ≠ [] ∧ allDigits rest then -(digitsVal rest : Int) else 0)
    else (if allDigits (c :: rest) then (digitsVal (c :: rest) : Int) else 0)

/-- Embedding of `strToNumSuffix` (src/unnamed/part_001 lines 202-219):
`num := 1`; when the string has length greater than 1, a trailing G/g, M/m
or K/k multiplies `num` by `mult` three, two or one times (the Go switch
falls through) and strips the suffix character; finally the remaining
string is parsed with `Atoi` (error discarded) and multiplied by `num`. -/
def strToNumSuffix (str : List Char) (mult : Int) : Int :=
  let p : List Char × Int :=
    if str.length > 1 then
      match str.getLast? with
      | some c =>
        if c = 'G' ∨ c = 'g' then (str.dropLast, mult * mult * mult)
        else if c = 'M' ∨ c = 'm' then (str.dropLast, mult * mult)
        else if c = 'K' ∨ c = 'k' then (str.dropLast, mult)
        else (str, 1)
      | none => (str, 1)
    else (str, 1)
  atoi p.1 * p.2

example : strToNumSuffix ("10K".toList) 1000 = 10000 := by decide

example : strToNumSuffix ("2M".toList) 1024 = 2097152 := by decide

example : strToNumSuffix ("5".toList) 77 = 5 := by decide

example : strToNumSuffix ("abc".toList) 1000 = 0 := by decide

example : strToNumSuffix ("K".toList) 1000 = 0 := by decide

/-- A Go empty-interface argument value as the source's entry points consume
it: the sources only ever render such values with the v and s verbs, so a
string payload and an integer payload suffice for the model. -/
inductive GoVal where
  | vstr (s : List Char)
  | vnat (n : Nat)
deriving DecidableEq

/-- Modelled from the spec: Go `fmt.Sprint` on a single value (an external
collaborator of the core).  A string renders as itself, an integer as its
decimal digits. -/
def sprintVal : GoVal → List Char
  | .vstr s => s
  | .vnat n => Nat.toDigits 10 n

/-- True for the format verbs the repository sources use. -/
def verbChar (c : Char) : Bool := c = 's' || c = 'v'

/-- Modelled from the spec: Go `fmt.Sprintf` (external collaborator),
covering the directives the sources emit.  A percent sign followed by
another percent sign is a literal percent; the s and v verbs consume one
argument and render it; a verb with no argument left renders Go's
MISSING marker; leftover arguments append Go's EXTRA marker; other
characters are copied. -/
def sprintf : List Char → List GoVal → List Char
  | [], args => if args.isEmpty then [] else "%!(EXTRA)".toList
  | c :: rest, args =>
    if c = '%' then
      match rest, args with
      | [], _ => ['%']
      | d :: rest2, args =>
        if d = '%' then '%' :: sprintf rest2 args
        else if verbChar d then
          match args with
          | a :: more => sprintVal a ++ sprintf rest2 more
          | [] => '%' :: '!' :: d :: ("(MISSING)".toList ++ sprintf rest2 [])
        else '%' :: '!' :: d :: ("(BADVERB)".toList ++ sprintf rest2 args)
    else c :: sprintf rest args

example : sprintf ("%s".toList) [GoVal.vstr ("ab".toList)] = "ab".toList := by decide

example : sprintf ("a %v!".toList) [GoVal.vnat 12] = "a 12!".toList := by decide

example : sprintf ("%v %v".toList) [GoVal.vnat 7] = "7 %!v(MISSING)".toList := by decide

/-- Configuration a `FileLogWriter` is built from by `xmlToFileLogWriter`
(src/unnamed/part_001 lines 221-271): the fields the builder sets before
calling `NewFileLogWriter` and the setters. -/
structure FileCfg where
  file : List Char
  format : List Char
  maxlines : Int
  maxsize : Int
  daily : Bool
  rotate : Bool
deriving DecidableEq

/-- Configuration an XML `FileLogWriter` is built from by
`xmlToXMLLogWriter` (src/unnamed/part_001 lines 273-316). -/
structure XmlFileCfg where
  file : List Char
  maxrecords : Int
  maxsize : Int
  daily : Bool
  rotate : Bool
deriving DecidableEq

/-- Configuration a `SocketLogWriter` is built from by
`xmlToSocketLogWriter` (src/unnamed/part_001 lines 318-346). -/
structure SockCfg where
  endpoint : List Char
  protocol : List Char
deriving DecidableEq

/-- The closed set of writers the configuration loader can instantiate. -/
inductive BuiltWriter where
  | console
  | file (cfg : FileCfg)
  | xmlw (cfg : XmlFileCfg)
  | sock (cfg : SockCfg)
deriving DecidableEq

/-- The `Filter` struct of the core: severity threshold, the writer, and
the exclude patterns (the struct literal appears in src/unnamed/part_001
line 153 as Filter of lvl, filt, excludes).  The writer is optional
because the builders return a nil writer for a disabled filter. -/
structure Filter where
  level : Level
  writer : Option BuiltWriter
  excludes : List (List Char)
deriving DecidableEq

/-- The `Logger` type: a mapping from filter tag to `Filter`, embedded as
an association list where the most recent insertion for a tag shadows the
older ones. -/
abbrev Logger := List (List Char × Filter)

/-- Map lookup on the embedded `Logger`. -/
def logLookup (log : Logger) (t : List Char) : Option Filter :=
  (log.find? (fun p => p.1 == t)).map (fun p => p.2)

/-- Map insertion on the embedded `Logger` (last write wins). -/
def logInsert (log : Logger) (t : List Char) (f : Filter) : Logger :=
  (t, f) :: log

/-- One emitted log event. -/
structure LogRecord where
  level : Level
  source : List Char
  message : List Char
deriving DecidableEq

/-- Modelled from the spec: the per-filter acceptance check of the core
dispatch (not under src/).  A record is accepted iff its level reaches the
threshold and no exclude pattern matches its source; the pattern-matching
predicate itself is a parameter, since the spec leaves its exact matching
relation to the collaborator that supplies the patterns. -/
def filterAccepts (pmatch : List Char → List Char → Bool)
    (f : Filter) (r : LogRecord) : Bool :=
  decide (f.level ≤ r.level) && f.excludes.all (fun p => !(pmatch p r.source))

/-- Embedding of `isLevelEnabled` (src/unnamed/part_000 lines 376-386):
scan the logger's filters and report true as soon as one threshold is at
or below the queried level (the Go loop breaks at the first match). -/
def isLevelEnabled : Logger → Level → Bool
  | [], _ => false
  | (_, filt) :: rest, lvl => if filt.level ≤ lvl then true else isLevelEnabled rest lvl

/-- Embedding of `IsFinestEnabled` (src/unnamed/part_000 lines 348-350),
with the ambient `Global` logger passed explicitly. -/
def IsFinestEnabled (log : Logger) : Bool := isLevelEnabled log FINEST

/-- Embedding of `IsFineEnabled` (src/unnamed/part_000 lines 352-354). -/
def IsFineEnabled (log : Logger) : Bool := isLevelEnabled log FINE

/-- Embedding of `IsDebugEnabled` (src/unnamed/part_000 lines 356-358). -/
def IsDebugEnabled (log : Logger) : Bool := isLevelEnabled log DEBUG

/-- Embedding of `IsTraceEnabled` (src/unnamed/part_000 lines 360-362). -/
def IsTraceEnabled (log : Logger) : Bool := isLevelEnabled log TRACE

/-- Embedding of `IsInfoEnabled` (src/unnamed/part_000 lines 364-366). -/
def IsInfoEnabled (log : Logger) : Bool := isLevelEnabled log INFO

/-- Embedding of `IsWarnEnabled` (src/unnamed/part_000 lines 368-370). -/
def IsWarnEnabled (log : Logger) : Bool := isLevelEnabled log WARNING

/-- Embedding of `IsErrorEnabled` (src/unnamed/part_000 lines 372-374). -/
def IsErrorEnabled (log : Logger) : Bool := isLevelEnabled log ERROR

/-- Modelled from the spec: the message `intLogf` of the core (not under
src/) hands to the accepting writers — the format string rendered with the
supplied arguments when there are any, the format string itself when the
call supplies none. -/
def intLogfMsg (format : List Char) (args : List GoVal) : List Char :=
  if args.isEmpty then format else sprintf format args

/-- Go `strings.Repeat(" %v", n)`, the print-style format the entry points
build in their default branch. -/
def repeatVfmt (n : Nat) : List Char :=
  (List.replicate n (" %v".toList)).flatten

/-- Modelled from the spec: the host's rendering of a function value when
one reaches a print-style branch (Go prints an address; the model uses a
fixed representative text, which no claim depends on). -/
def goFuncText : List Char := "0x0".toList

/-- The polymorphic first argument of the convenience entry points: a
format string, a zero-argument closure producing a string, a one-argument
closure producing a string, or any other value. -/
inductive Arg0 where
  | str (format : List Char)
  | cls (f : Unit → List Char)
  | cls1 (f : GoVal → List Char)
  | other (v : GoVal)

/-- Go `fmt.Sprint` applied to the raw first argument (used by the default
branches of the entry points). -/
def sprintArg0 : Arg0 → List Char
  | .str s => s
  | .cls _ => goFuncText
  | .cls1 _ => goFuncText
  | .other v => sprintVal v

/-- Observable effect of one convenience entry-point call: the message
content handed to the core dispatch (none when the lazy closure was never
run), how many times the supplied closure was invoked, and the error text
returned (none for the entry points that return nothing). -/
structure EntryEffect where
  msg : Option (List Char)
  closureCalls : Nat
  errMsg : Option (List Char)
deriving DecidableEq

/-- Common body of `Finest`, `Fine`, `Debug`, `Trace`, `Info` and `Access`
(src/unnamed/part_000 lines 129-242; the six functions are textually
identical up to the level constant): a string first argument is a format
string for `intLogf`; a zero-argument closure goes through `intLogc`,
which (modelled from the spec, `intLogc` is not under src/) runs the
closure only when some filter's threshold is at or below the level; any
other first argument is rendered print-style.  The `cs` parameter stands
for the host's call-stack capture facility; these functions never use
it. -/
def logShape (log : Logger) (cs : Nat → List Char) (lvl : Level)
    (arg0 : Arg0) (args : List GoVal) : EntryEffect :=
  match arg0 with
  | .str first => ⟨some (intLogfMsg first args), 0, none⟩
  | .cls f =>
    if isLevelEnabled log lvl then ⟨some (f ()), 1, none⟩ else ⟨none, 0, none⟩
  | a => ⟨some (intLogfMsg (sprintArg0 a ++ repeatVfmt args.length) args), 0, none⟩

/-- Embedding of `Finest` (src/unnamed/part_000 lines 129-144). -/
def Finest (log : Logger) (cs : Nat → List Char) (arg0 : Arg0) (args : List GoVal) : EntryEffect :=
  logShape log cs FINEST arg0 args

/-- Embedding of `Fine` (src/unnamed/part_000 lines 148-163). -/
def Fine (log : Logger) (cs : Nat → List Char) (arg0 : Arg0) (args : List GoVal) : EntryEffect :=
  logShape log cs FINE arg0 args

/-- Embedding of `Debug` (src/unnamed/part_000 lines 170-185). -/
def Debug (log : Logger) (cs : Nat → List Char) (arg0 : Arg0) (args : List GoVal) : EntryEffect :=
  logShape log cs DEBUG arg0 args

/-- Embedding of `Trace` (src/unnamed/part_000 lines 189-204). -/
def Trace (log : Logger) (cs : Nat → List Char) (arg0 : Arg0) (args : List GoVal) : EntryEffect :=
  logShape log cs TRACE arg0 args

/-- Embedding of `Info` (src/unnamed/part_000 lines 208-223). -/
def Info (log : Logger) (cs : Nat → List Char) (arg0 : Arg0) (args : List GoVal) : EntryEffect :=
  logShape log cs INFO arg0 args

/-- Embedding of `Access` (src/unnamed/part_000 lines 227-242). -/
def Access (log : Logger) (cs : Nat → List Char) (arg0 : Arg0) (args : List GoVal) : EntryEffect :=
  logShape log cs ACCESS arg0 args

/-- Embedding of `Warn` (src/unnamed/part_000 lines 247-267).  A string
first argument is logged as a format string and the error is built from
an independent Sprintf of it; a zero-argument closure is invoked
unconditionally (before any filter check) and its result both logged via
a s-verb format and returned; anything else falls to the print-style
branch, where the logged text re-interprets the concatenated format while
the error text is a two-pass concatenation. -/
def Warn (log : Logger) (cs : Nat → List Char) (arg0 : Arg0) (args : List GoVal) : EntryEffect :=
  match arg0 with
  | .str first =>
    ⟨some (intLogfMsg first args), 0, some (sprintf first args)⟩
  | .cls f =>
    let str := f ()
    ⟨some (intLogfMsg ("%s".toList) [GoVal.vstr str]), 1, some str⟩
  | a =>
    ⟨some (intLogfMsg (sprintArg0 a ++ repeatVfmt args.length) args), 0,
      some (sprintArg0 a ++ sprintf (repeatVfmt args.length) args)⟩

/-- Embedding of `Error` (src/unnamed/part_000 lines 272-292), textually
identical to `Warn` up to the level constant. -/
def Error (log : Logger) (cs : Nat → List Char) (arg0 : Arg0) (args : List GoVal) : EntryEffect :=
  match arg0 with
  | .str first =>
    ⟨some (intLogfMsg first args), 0, some (sprintf first args)⟩
  | .cls f =>
    let str := f ()
    ⟨some (intLogfMsg ("%s".toList) [GoVal.vstr str]), 1, some str⟩
  | a =>
    ⟨some (intLogfMsg (sprintArg0 a ++ repeatVfmt args.length) args), 0,
      some (sprintArg0 a ++ sprintf (repeatVfmt args.length) args)⟩

/-- Embedding of `Critical` (src/unnamed/part_000 lines 297-325).  Every
branch appends the captured call stack at depth 3 to the rendered message
before handing it to `intLogf`, and returns the rendered message without
the stack as the error.  The one-argument-closure branch reads the first
vararg unconditionally, so a call with no varargs panics (modelled as
`none`). -/
def Critical (log : Logger) (cs : Nat → List Char) (arg0 : Arg0) (args : List GoVal) :
    Option EntryEffect :=
  match arg0 with
  | .str first =>
    let rendered := sprintf first args
    let msg := sprintf ("%s\n%s".toList) [GoVal.vstr rendered, GoVal.vstr (cs 3)]
    some ⟨some (intLogfMsg msg []), 0, some rendered⟩
  | .cls f =>
    let str := f ()
    some ⟨some (intLogfMsg ("%s\n%s".toList) [GoVal.vstr str, GoVal.vstr (cs 3)]), 1, some str⟩
  | .cls1 f =>
    match args with
    | [] => none
    | a :: _ =>
      let str := f a
      some ⟨some (intLogfMsg ("%s\n%s".toList) [GoVal.vstr str, GoVal.vstr (cs 3)]), 1, some str⟩
  | .other v =>
    let rendered := sprintVal v ++ sprintf (repeatVfmt args.length) args
    let msg := sprintf ("%s\n%s".toList) [GoVal.vstr rendered, GoVal.vstr (cs 3)]
    some ⟨some (intLogfMsg msg []), 0, some rendered⟩

/-- Closure-invocation count of a possibly-panicking call. -/
def critCalls (o : Option EntryEffect) : Nat :=
  match o with
  | none => 0
  | some e => e.closureCalls

/-- One property element of a filter in the XML configuration
(src/unnamed/part_001 lines 16-19). -/
structure XmlProp where
  name : List Char
  value : List Char
deriving DecidableEq

/-- One filter element of the XML configuration (src/unnamed/part_001
lines 21-28). -/
structure XmlFilt where
  enabled : List Char
  tag : List Char
  level : List Char
  typ : List Char
  props : List XmlProp
  excludes : List (List Char)
deriving DecidableEq

/-- One step of the property loop of `xmlToFileLogWriter`
(src/unnamed/part_001 lines 230-252), over the accumulated configuration
and the count of unknown-property warnings.  The filename value is joined
to the executable's directory; that path resolution is the `join`
parameter (an external collaborator resolved at load time). -/
def fileStep (join : List Char → List Char) (st : FileCfg × Nat) (prop : XmlProp) :
    FileCfg × Nat :=
  if prop.name = "filename".toList then
    ({ st.1 with file := join (trimChars prop.value) }, st.2)
  else if prop.name = "format".toList then
    ({ st.1 with format := trimChars prop.value }, st.2)
  else if prop.name = "maxlines".toList then
    ({ st.1 with maxlines := strToNumSuffix (trimChars prop.value) 1000 }, st.2)
  else if prop.name = "maxsize".toList then
    ({ st.1 with maxsize := strToNumSuffix (trimChars prop.value) 1024 }, st.2)
  else if prop.name = "daily".toList then
    ({ st.1 with daily := trimChars prop.value != "false".toList }, st.2)
  else if prop.name = "rotate".toList then
    ({ st.1 with rotate := trimChars prop.value != "false".toList }, st.2)
  else (st.1, st.2 + 1)

/-- Embedding of `xmlToFileLogWriter` (src/unnamed/part_001 lines
221-271): parse the properties (warning on unknown names), then fail when
no filename was set, then return without a writer when the filter is
disabled, otherwise return the built writer configuration.  Result is
(writer, good, warning count). -/
def xmlToFileLogWriter (join : List Char → List Char) (excludes : List (List Char))
    (props : List XmlProp) (enabled : Bool) : Option FileCfg × Bool × Nat :=
  let init : FileCfg := ⟨[], "[%D %T] [%L] (%S) %M".toList, 0, 0, false, false⟩
  let r := props.foldl (fileStep join) (init, 0)
  if r.1.file = [] then (none, false, r.2)
  else if !enabled then (none, true, r.2)
  else (some r.1, true, r.2)

/-- One step of the property loop of `xmlToXMLLogWriter`
(src/unnamed/part_001 lines 281-298). -/
def xmlFileStep (join : List Char → List Char) (st : XmlFileCfg × Nat) (prop : XmlProp) :
    XmlFileCfg × Nat :=
  if prop.name = "filename".toList then
    ({ st.1 with file := join (trimChars prop.value) }, st.2)
  else if prop.name = "maxrecords".toList then
    ({ st.1 with maxrecords := strToNumSuffix (trimChars prop.value) 1000 }, st.2)
  else if prop.name = "maxsize".toList then
    ({ st.1 with maxsize := strToNumSuffix (trimChars prop.value) 1024 }, st.2)
  else if prop.name = "daily".toList then
    ({ st.1 with daily := trimChars prop.value != "false".toList }, st.2)
  else if prop.name = "rotate".toList then
    ({ st.1 with rotate := trimChars prop.value != "false".toList }, st.2)
  else (st.1, st.2 + 1)

/-- Embedding of `xmlToXMLLogWriter` (src/unnamed/part_001 lines 273-316),
with the same shape as the file-writer builder. -/
def xmlToXMLLogWriter (join : List Char → List Char) (excludes : List (List Char))
    (props : List XmlProp) (enabled : Bool) : Option XmlFileCfg × Bool × Nat :=
  let init : XmlFileCfg := ⟨[], 0, 0, false, false⟩
  let r := props.foldl (xmlFileStep join) (init, 0)
  if r.1.file = [] then (none, false, r.2)
  else if !enabled then (none, true, r.2)
  else (some r.1, true, r.2)

/-- One step of the property loop of `xmlToSocketLogWriter`
(src/unnamed/part_001 lines 323-332). -/
def sockStep (st : SockCfg × Nat) (prop : XmlProp) : SockCfg × Nat :=
  if prop.name = "endpoint".toList then
    ({ st.1 with endpoint := trimChars prop.value }, st.2)
  else if prop.name = "protocol".toList then
    ({ st.1 with protocol := trimChars prop.value }, st.2)
  else (st.1, st.2 + 1)

/-- Embedding of `xmlToSocketLogWriter` (src/unnamed/part_001 lines
318-346): protocol defaults to udp; a missing endpoint fails before the
disabled check. -/
def xmlToSocketLogWriter (excludes : List (List Char))
    (props : List XmlProp) (enabled : Bool) : Option SockCfg × Bool × Nat :=
  let init : SockCfg := ⟨[], "udp".toList⟩
  let r := props.foldl sockStep (init, 0)
  if r.1.endpoint = [] then (none, false, r.2)
  else if !enabled then (none, true, r.2)
  else (some r.1, true, r.2)

/-- Embedding of `xmlToConsoleLogWriter` (src/unnamed/part_001 lines
184-199): every property is unknown and warned about; the builder always
succeeds, returning a writer exactly when the filter is enabled. -/
def xmlToConsoleLogWriter (excludes : List (List Char))
    (props : List XmlProp) (enabled : Bool) : Option Unit × Bool × Nat :=
  if !enabled then (none, true, props.length)
  else (some (), true, props.length)

/-- Embedding of `convertLevel` (src/unnamed/part_001 lines 157-182): the
nine named level identifiers map to their constants; any other string
leaves the zero level and sets the bad flag. -/
def convertLevel (level : List Char) : Level × Bool :=
  if level = "ACCESS".toList then (ACCESS, false)
  else if level = "FINEST".toList then (FINEST, false)
  else if level = "FINE".toList then (FINE, false)
  else if level = "DEBUG".toList then (DEBUG, false)
  else if level = "TRACE".toList then (TRACE, false)
  else if level = "INFO".toList then (INFO, false)
  else if level = "WARNING".toList then (WARNING, false)
  else if level = "ERROR".toList then (ERROR, false)
  else if level = "CRITICAL".toList then (CRITICAL, false)
  else (FINEST, true)

/-- Outcome of processing one filter element inside `LoadConfiguration`:
the process exits, or the (disabled) filter is skipped, or a filter is
added to the logger under its tag. -/
inductive FilterOutcome where
  | fatal
  | skipped
  | added (tag : List Char) (lvl : Level) (w : Option BuiltWriter) (excludes : List (List Char))
deriving DecidableEq

/-- Embedding of the per-filter body of `LoadConfiguration`
(src/unnamed/part_001 lines 97-154).  The required-child checks set a bad
flag that the call to `convertLevel` then overwrites, as in the source;
an unknown filter type, a builder failure, or a bad level are fatal; a
disabled filter that passed the builder's checks is skipped; otherwise
the filter is added. -/
def processFilter (join : List Char → List Char) (xf : XmlFilt) : FilterOutcome :=
  let bad := if xf.enabled.length = 0 then true else false
  let enabled := if xf.enabled.length = 0 then false else xf.enabled != "false".toList
  let bad := if xf.tag.length = 0 then true else bad
  let bad := if xf.typ.length = 0 then true else bad
  let bad := if xf.level.length = 0 then true else bad
  let lvl := (convertLevel xf.level).1
  let bad := (convertLevel xf.level).2
  if bad then FilterOutcome.fatal
  else
    let wres : Option (Option BuiltWriter × Bool) :=
      if xf.typ = "console".toList then
        let r := xmlToConsoleLogWriter xf.excludes xf.props enabled
        some (r.1.map (fun _ => BuiltWriter.console), r.2.1)
      else if xf.typ = "file".toList then
        let r := xmlToFileLogWriter join xf.excludes xf.props enabled
        some (r.1.map BuiltWriter.file, r.2.1)
      else if xf.typ = "xml".toList then
        let r := xmlToXMLLogWriter join xf.excludes xf.props enabled
        some (r.1.map BuiltWriter.xmlw, r.2.1)
      else if xf.typ = "socket".toList then
        let r := xmlToSocketLogWriter xf.excludes xf.props enabled
        some (r.1.map BuiltWriter.sock, r.2.1)
      else none
    match wres with
    | none => FilterOutcome.fatal
    | some wr =>
      if !wr.2 then FilterOutcome.fatal
      else if !enabled then FilterOutcome.skipped
      else FilterOutcome.added xf.tag lvl wr.1 xf.excludes

/-- Modelled from the spec: `Logger.Close` (not under src/) closes every
writer and empties the filter mapping.  The result pairs the emptied
mapping with the writers that were closed. -/
def closeLogger (log : Logger) : Logger × List (Option BuiltWriter) :=
  ([], log.map (fun p => p.2.writer))

/-- Folding step of `LoadConfiguration` over the parsed filter elements; a
fatal outcome ends the process (none). -/
def loadConfigStep (join : List Char → List Char) (st : Option Logger) (xf : XmlFilt) :
    Option Logger :=
  match st with
  | none => none
  | some log =>
    match processFilter join xf with
    | .fatal => none
    | .skipped => some log
    | .added t lvl w ex => some (logInsert log t ⟨lvl, w, ex⟩)

/-- Embedding of `Logger.LoadConfiguration` (src/unnamed/part_001 lines
74-155) after the XML has been parsed into filter elements: it first
closes the logger (line 76), then processes each filter element in order.
The result pairs the final logger (none when the process exited) with the
writers closed at entry. -/
def LoadConfiguration (join : List Char → List Char) (log : Logger) (xc : List XmlFilt) :
    Option Logger × List (Option BuiltWriter) :=
  (xc.foldl (loadConfigStep join) (some (closeLogger log).1), (closeLogger log).2)

/-- True when a text contains no percent sign, hence no format directive. -/
def noPercent (s : List Char) : Bool := s.all (fun c => c != '%')

theorem sprintf_append_of_noPercent (A B : List Char) (args : List GoVal) :
    noPercent A = true → sprintf (A ++ B) args = A ++ sprintf B args := by
  induction A with
  | nil => intro h; rfl
  | cons c A ih =>
    intro h
    simp only [noPercent, List.all_cons, Bool.and_eq_true, bne_iff_ne, ne_eq] at h
    obtain ⟨hc, hA⟩ := h
    have ih' := ih (by simpa [noPercent] using hA)
    rw [List.cons_append, sprintf.eq_def]
    simp [hc, ih']

theorem sprintf_verbatim_of_noPercent (A : List Char) (h : noPercent A = true) :
    sprintf A [] = A := by
  have h0 : sprintf [] ([] : List GoVal) = [] := rfl
  have := sprintf_append_of_noPercent A [] [] h
  simpa [h0] using this

theorem sprintf_s (a : List Char) :
    sprintf ['%', 's'] [GoVal.vstr a] = a := by
  simp [sprintf, sprintVal, verbChar]

theorem sprintf_sns (a b : List Char) :
    sprintf ['%', 's', '\n', '%', 's'] [GoVal.vstr a, GoVal.vstr b] = a ++ '\n' :: b := by
  simp [sprintf, sprintVal, verbChar]

theorem atoi_digits (s : List Char) (hne : s ≠ []) (hd : allDigits s = true) :
    atoi s = (digitsVal s : Int) := by
  match s, hne with
  | c :: rest, _ =>
    have hc : c.isDigit = true := by
      simp only [allDigits, List.all_cons, Bool.and_eq_true] at hd
      exact hd.1
    have hplus : c ≠ '+' := by intro h; rw [h] at hc; exact absurd hc (by decide)
    have hminus : c ≠ '-' := by intro h; rw [h] at hc; exact absurd hc (by decide)
    simp [atoi, hplus, hminus, hd]

theorem strToNumSuffix_concat (ds : List Char) (hne : ds ≠ []) (c : Char) (mult : Int) :
    strToNumSuffix (ds ++ [c]) mult =
      if c = 'G' ∨ c = 'g' then atoi ds * (mult * mult * mult)
      else if c = 'M' ∨ c = 'm' then atoi ds * (mult * mult)
      else if c = 'K' ∨ c = 'k' then atoi ds * mult
      else atoi (ds ++ [c]) * 1 := by
  have hlen : (ds ++ [c]).length > 1 := by
    have h1 : 0 < ds.length := List.length_pos.mpr hne
    simp only [List.length_append, List.length_cons, List.length_nil]
    omega
  have hlast : (ds ++ [c]).getLast? = some c := List.getLast?_concat _
  have hdrop : (ds ++ [c]).dropLast = ds := List.dropLast_concat
  unfold strToNumSuffix
  rw [if_pos hlen, hlast]
  by_cases hG : c = 'G' ∨ c = 'g'
  · simp [hG, hdrop]
  · by_cases hM : c = 'M' ∨ c = 'm'
    · simp [hG, hM, hdrop]
    · by_cases hK : c = 'K' ∨ c = 'k'
      · simp [hG, hM, hK, hdrop]
      · simp [hG, hM, hK]

theorem strToNumSuffix_short (s : List Char) (mult : Int) (h : s.length ≤ 1) :
    strToNumSuffix s mult = atoi s := by
  have hnot : ¬ s.length > 1 := by omega
  unfold strToNumSuffix
  rw [if_neg hnot]
  exact mul_one _

theorem strToNumSuffix_default (s : List Char) (mult : Int) (c : Char)
    (hlast : s.getLast? = some c)
    (hG : ¬(c = 'G' ∨ c = 'g')) (hM : ¬(c = 'M' ∨ c = 'm')) (hK : ¬(c = 'K' ∨ c = 'k')) :
    strToNumSuffix s mult = atoi s := by
  unfold strToNumSuffix
  by_cases hlen : s.length > 1
  · rw [if_pos hlen, hlast]
    simp [hG, hM, hK]
  · rw [if_neg hlen]
    exact mul_one _

/-- C1: a record is accepted by a filter iff its level is at or above the
filter's threshold and no exclude pattern matches its source; acceptance
is antitone in the threshold (raising the threshold only shrinks the
accepted set). -/
theorem C1_filter_acceptance (pmatch : List Char → List Char → Bool)
    (f : Filter) (r : LogRecord) :
    (filterAccepts pmatch f r = true ↔
      (f.level ≤ r.level ∧ ∀ p ∈ f.excludes, pmatch p r.source = false)) ∧
    (∀ t t' : Level, t ≤ t' →
      filterAccepts pmatch ⟨t', f.writer, f.excludes⟩ r = true →
      filterAccepts pmatch ⟨t, f.writer, f.excludes⟩ r = true) := by
  constructor
  · simp [filterAccepts, List.all_eq_true]
  · intro t t' htt h
    simp only [filterAccepts, Bool.and_eq_true, decide_eq_true_eq] at h ⊢
    exact ⟨le_trans htt h.1, h.2⟩

/-- Witness for C1 at a concrete filter, record and threshold pair. -/
theorem C1_filter_acceptance_witness :
    filterAccepts (fun _ _ => false) ⟨DEBUG, none, []⟩ ⟨INFO, [], []⟩ = true :=
  (C1_filter_acceptance (fun _ _ => false) ⟨FINEST, none, []⟩ ⟨INFO, [], []⟩).2
    DEBUG INFO (by decide) (by decide)

/-- C4: the level-enabled check is true iff some filter of the logger has
a threshold at or below the level, and is false on a logger with no
filters; the eight convenience checks are this check at their fixed
levels. -/
theorem C4_isLevelEnabled (log : Logger) (lvl : Level) :
    (isLevelEnabled log lvl = true ↔ ∃ p ∈ log, p.2.level ≤ lvl) ∧
    isLevelEnabled [] lvl = false ∧
    IsFinestEnabled log = isLevelEnabled log FINEST ∧
    IsFineEnabled log = isLevelEnabled log FINE ∧
    IsDebugEnabled log = isLevelEnabled log DEBUG ∧
    IsTraceEnabled log = isLevelEnabled log TRACE ∧
    IsInfoEnabled log = isLevelEnabled log INFO ∧
    IsWarnEnabled log = isLevelEnabled log WARNING ∧
    IsErrorEnabled log = isLevelEnabled log ERROR := by
  refine ⟨?_, rfl, rfl, rfl, rfl, rfl, rfl, rfl, rfl⟩
  induction log with
  | nil => simp [isLevelEnabled]
  | cons hd tl ih =>
    obtain ⟨t, f⟩ := hd
    by_cases h : f.level ≤ lvl
    · simp [isLevelEnabled, h]
    · simp [isLevelEnabled, h, ih]

/-- C10: the suffix letter is interpreted only on inputs of length at
least 2 — on any shorter input the result is the plain integer parse, so
the one-character inputs K, M, G (and their lowercase forms) yield 0
rather than the bare multiplier. -/
theorem C10_short_inputs :
    (∀ mult : Int,
      strToNumSuffix ['K'] mult = 0 ∧ strToNumSuffix ['k'] mult = 0 ∧
      strToNumSuffix ['M'] mult = 0 ∧ strToNumSuffix ['m'] mult = 0 ∧
      strToNumSuffix ['G'] mult = 0 ∧ strToNumSuffix ['g'] mult = 0) ∧
    (∀ (s : List Char) (mult : Int), s.length ≤ 1 → strToNumSuffix s mult = atoi s) := by
  refine ⟨fun mult => ?_, fun s mult h => strToNumSuffix_short s mult h⟩
  refine ⟨?_, ?_, ?_, ?_, ?_, ?_⟩ <;>
    · rw [strToNumSuffix_short _ mult (by decide)]
      decide

/-- Witness for C10 at a concrete short input. -/
theorem C10_short_inputs_witness : strToNumSuffix ['Z'] 9 = atoi ['Z'] :=
  C10_short_inputs.2 ['Z'] 9 (by decide)

/-- C3: suffix parsing — a digit string followed by K, M or G (either
case) parses to the integer times the first, second or third power of the
supplied multiplier, a bare digit string parses to itself, and the quoted
concrete examples hold, with malformed input yielding 0 (the function is
total, so it cannot raise). -/
theorem C3_strToNumSuffix :
    (strToNumSuffix ("10K".toList) 1000 = 10000 ∧
     strToNumSuffix ("2M".toList) 1024 = 2097152 ∧
     (∀ mult : Int, strToNumSuffix ("5".toList) mult = 5) ∧
     (∀ mult : Int, strToNumSuffix ("abc".toList) mult = 0)) ∧
    (∀ (ds : List Char) (mult : Int), ds ≠ [] → allDigits ds = true →
      strToNumSuffix (ds ++ ['K']) mult = (digitsVal ds : Int) * mult ∧
      strToNumSuffix (ds ++ ['k']) mult = (digitsVal ds : Int) * mult ∧
      strToNumSuffix (ds ++ ['M']) mult = (digitsVal ds : Int) * (mult * mult) ∧
      strToNumSuffix (ds ++ ['m']) mult = (digitsVal ds : Int) * (mult * mult) ∧
      strToNumSuffix (ds ++ ['G']) mult = (digitsVal ds : Int) * (mult * mult * mult) ∧
      strToNumSuffix (ds ++ ['g']) mult = (digitsVal ds : Int) * (mult * mult * mult) ∧
      strToNumSuffix ds mult = (digitsVal ds : Int)) := by
  constructor
  · refine ⟨by decide, by decide, fun mult => ?_, fun mult => ?_⟩
    · rw [strToNumSuffix_short _ mult (by decide)]
      decide
    · rw [strToNumSuffix_default ("abc".toList) mult 'c' (by decide) (by decide) (by decide)
        (by decide)]
      decide
  · intro ds mult hne hd
    have hA := atoi_digits ds hne hd
    have hc : ds.getLast? = some (ds.getLast hne) := List.getLast?_eq_getLast_of_ne_nil hne
    have hdig : (ds.getLast hne).isDigit = true := by
      simp only [allDigits, List.all_eq_true] at hd
      exact hd _ (List.getLast_mem hne)
    have hG : ¬(ds.getLast hne = 'G' ∨ ds.getLast hne = 'g') := by
      rintro (h | h) <;> rw [h] at hdig <;> exact absurd hdig (by decide)
    have hM : ¬(ds.getLast hne = 'M' ∨ ds.getLast hne = 'm') := by
      rintro (h | h) <;> rw [h] at hdig <;> exact absurd hdig (by decide)
    have hK : ¬(ds.getLast hne = 'K' ∨ ds.getLast hne = 'k') := by
      rintro (h | h) <;> rw [h] at hdig <;> exact absurd hdig (by decide)
    refine ⟨?_, ?_, ?_, ?_, ?_, ?_, ?_⟩
    · rw [strToNumSuffix_concat ds hne 'K' mult, if_neg (by decide), if_neg (by decide),
        if_pos (by decide), hA]
    · rw [strToNumSuffix_concat ds hne 'k' mult, if_neg (by decide), if_neg (by decide),
        if_pos (by decide), hA]
    · rw [strToNumSuffix_concat ds hne 'M' mult, if_neg (by decide), if_pos (by decide), hA]
    · rw [strToNumSuffix_concat ds hne 'm' mult, if_neg (by decide), if_pos (by decide), hA]
    · rw [strToNumSuffix_concat ds hne 'G' mult, if_pos (by decide), hA]
    · rw [strToNumSuffix_concat ds hne 'g' mult, if_pos (by decide), hA]
    · rw [strToNumSuffix_default ds mult _ hc hG hM hK, hA]

/-- Witness for C3 at a concrete digit string and multiplier. -/
theorem C3_strToNumSuffix_witness :
    strToNumSuffix (['4'] ++ ['K']) 10 = (digitsVal ['4'] : Int) * 10 :=
  (C3_strToNumSuffix.2 ['4'] 10 (by decide) (by decide)).1

theorem logShape_calls_le_one (log : Logger) (cs : Nat → List Char) (lvl : Level)
    (arg0 : Arg0) (args : List GoVal) :
    (logShape log cs lvl arg0 args).closureCalls ≤ 1 := by
  cases arg0 with
  | cls f =>
    by_cases h : isLevelEnabled log lvl = true
    · simp [logShape, h]
    · simp [logShape, h]
  | str first => simp [logShape]
  | cls1 f => simp [logShape]
  | other v => simp [logShape]

theorem logShape_calls_disabled (log : Logger) (cs : Nat → List Char) (lvl : Level)
    (arg0 : Arg0) (args : List GoVal) (h : isLevelEnabled log lvl = false) :
    (logShape log cs lvl arg0 args).closureCalls = 0 := by
  cases arg0 <;> simp [logShape, h]

theorem warnShape_calls (log : Logger) (cs : Nat → List Char)
    (arg0 : Arg0) (args : List GoVal) :
    (Warn log cs arg0 args).closureCalls ≤ 1 ∧ (Error log cs arg0 args).closureCalls ≤ 1 := by
  cases arg0 <;> simp [Warn, Error]

theorem critical_calls_le_one (log : Logger) (cs : Nat → List Char)
    (arg0 : Arg0) (args : List GoVal) :
    critCalls (Critical log cs arg0 args) ≤ 1 := by
  cases arg0 with
  | cls1 f => cases args <;> simp [Critical, critCalls]
  | str first => simp [Critical, critCalls]
  | cls f => simp [Critical, critCalls]
  | other v => simp [Critical, critCalls]

/-- C2 counterexample: on a logger with no filters (so no filter's
threshold is satisfied at any level), a `Warn` call with a zero-argument
closure still runs the closure once, because the source invokes it
unconditionally to build the returned error. -/
theorem C2_counterexample :
    (Warn [] (fun _ => []) (Arg0.cls (fun _ => [])) []).closureCalls = 1 ∧
    isLevelEnabled [] WARNING = false :=
  ⟨rfl, rfl⟩

/-- C2 (amended): every convenience entry point runs a supplied
zero-argument closure at most once per call; for Finest, Fine, Debug,
Trace, Info and Access it runs zero times whenever no filter's threshold
is satisfied at the call's level; Warn, Error and Critical instead run
the closure exactly once regardless of the filters, to build the error
value they return. -/
theorem C2_closure_calls (log : Logger) (cs : Nat → List Char)
    (arg0 : Arg0) (args : List GoVal) :
    ((Finest log cs arg0 args).closureCalls ≤ 1 ∧
     (Fine log cs arg0 args).closureCalls ≤ 1 ∧
     (Debug log cs arg0 args).closureCalls ≤ 1 ∧
     (Trace log cs arg0 args).closureCalls ≤ 1 ∧
     (Info log cs arg0 args).closureCalls ≤ 1 ∧
     (Access log cs arg0 args).closureCalls ≤ 1 ∧
     (Warn log cs arg0 args).closureCalls ≤ 1 ∧
     (Error log cs arg0 args).closureCalls ≤ 1 ∧
     critCalls (Critical log cs arg0 args) ≤ 1) ∧
    ((isLevelEnabled log FINEST = false → (Finest log cs arg0 args).closureCalls = 0) ∧
     (isLevelEnabled log FINE = false → (Fine log cs arg0 args).closureCalls = 0) ∧
     (isLevelEnabled log DEBUG = false → (Debug log cs arg0 args).closureCalls = 0) ∧
     (isLevelEnabled log TRACE = false → (Trace log cs arg0 args).closureCalls = 0) ∧
     (isLevelEnabled log INFO = false → (Info log cs arg0 args).closureCalls = 0) ∧
     (isLevelEnabled log ACCESS = false → (Access log cs arg0 args).closureCalls = 0)) ∧
    (∀ f : Unit → List Char,
      (Warn log cs (Arg0.cls f) args).closureCalls = 1 ∧
      (Error log cs (Arg0.cls f) args).closureCalls = 1 ∧
      critCalls (Critical log cs (Arg0.cls f) args) = 1) := by
  refine ⟨⟨?_, ?_, ?_, ?_, ?_, ?_, ?_, ?_, ?_⟩, ⟨?_, ?_, ?_, ?_, ?_, ?_⟩, ?_⟩
  · exact logShape_calls_le_one log cs FINEST arg0 args
  · exact logShape_calls_le_one log cs FINE arg0 args
  · exact logShape_calls_le_one log cs DEBUG arg0 args
  · exact logShape_calls_le_one log cs TRACE arg0 args
  · exact logShape_calls_le_one log cs INFO arg0 args
  · exact logShape_calls_le_one log cs ACCESS arg0 args
  · exact (warnShape_calls log cs arg0 args).1
  · exact (warnShape_calls log cs arg0 args).2
  · exact critical_calls_le_one log cs arg0 args
  · exact fun h => logShape_calls_disabled log cs FINEST arg0 args h
  · exact fun h => logShape_calls_disabled log cs FINE arg0 args h
  · exact fun h => logShape_calls_disabled log cs DEBUG arg0 args h
  · exact fun h => logShape_calls_disabled log cs TRACE arg0 args h
  · exact fun h => logShape_calls_disabled log cs INFO arg0 args h
  · exact fun h => logShape_calls_disabled log cs ACCESS arg0 args h
  · intro f
    refine ⟨rfl, rfl, rfl⟩

/-- Witness for C2 on a concrete logger, closure and level. -/
theorem C2_closure_calls_witness :
    (Debug [] (fun _ => []) (Arg0.cls (fun _ => ['x'])) []).closureCalls = 0 :=
  ((C2_closure_calls [] (fun _ => []) (Arg0.cls (fun _ => ['x'])) []).2.1).2.2.1 rfl

/-- C5: for every argument shape, the message `Critical` hands to the
core dispatch is the rendered caller message, a newline, and the call
stack captured at fixed depth 3; no other convenience entry point
depends on the call-stack capture facility at all (their outputs are
invariant under changing it). -/
theorem C5_critical_stack (log : Logger) (cs cs' : Nat → List Char)
    (first : List Char) (f : Unit → List Char) (g : GoVal → List Char)
    (v a : GoVal) (args as : List GoVal) (arg0 : Arg0) :
    ((Critical log cs (Arg0.str first) args).map EntryEffect.msg =
       some (some (sprintf first args ++ '\n' :: cs 3)) ∧
     (Critical log cs (Arg0.cls f) args).map EntryEffect.msg =
       some (some (f () ++ '\n' :: cs 3)) ∧
     (Critical log cs (Arg0.cls1 g) (a :: as)).map EntryEffect.msg =
       some (some (g a ++ '\n' :: cs 3)) ∧
     (Critical log cs (Arg0.other v) args).map EntryEffect.msg =
       some (some ((sprintVal v ++ sprintf (repeatVfmt args.length) args) ++ '\n' :: cs 3))) ∧
    (Finest log cs arg0 args = Finest log cs' arg0 args ∧
     Fine log cs arg0 args = Fine log cs' arg0 args ∧
     Debug log cs arg0 args = Debug log cs' arg0 args ∧
     Trace log cs arg0 args = Trace log cs' arg0 args ∧
     Info log cs arg0 args = Info log cs' arg0 args ∧
     Access log cs arg0 args = Access log cs' arg0 args ∧
     Warn log cs arg0 args = Warn log cs' arg0 args ∧
     Error log cs arg0 args = Error log cs' arg0 args) := by
  refine ⟨⟨?_, ?_, ?_, ?_⟩, rfl, rfl, rfl, rfl, rfl, rfl, rfl, rfl⟩
  · simp [Critical, intLogfMsg, sprintf_sns]
  · simp [Critical, intLogfMsg, sprintf_sns]
  · simp [Critical, intLogfMsg, sprintf_sns]
  · simp [Critical, intLogfMsg, sprintf_sns]

/-- C6 counterexample: a print-style `Warn` call whose first argument
renders with a percent verb logs one text but returns another — the
logged message re-interprets the concatenated format (consuming the
vararg at the first verb), while the returned error is built by a second,
independent formatting pass. -/
theorem C6_counterexample :
    (Warn [] (fun _ => []) (Arg0.other (GoVal.vstr ['%', 'v'])) [GoVal.vnat 7]).errMsg ≠
    (Warn [] (fun _ => []) (Arg0.other (GoVal.vstr ['%', 'v'])) [GoVal.vnat 7]).msg := by
  decide

/-- C6 (amended): Warn, Error and Critical always return an error value;
its text equals the dispatched log message for the format-string shape
whenever arguments are supplied (or the format is verb-free), and for the
zero-argument-closure shape; for the print-style shape the two texts are
produced by separate formatting passes and coincide whenever the first
argument's rendering contains no percent sign.  For Critical the returned
text is always the dispatched message without the appended stack
trace. -/
theorem C6_error_return (log : Logger) (cs : Nat → List Char)
    (first : List Char) (f : Unit → List Char) (v : GoVal)
    (a : GoVal) (args as : List GoVal) (arg0 : Arg0) :
    ((Warn log cs arg0 args).errMsg.isSome = true ∧
     (Error log cs arg0 args).errMsg.isSome = true ∧
     (∀ e, Critical log cs arg0 args = some e → e.errMsg.isSome = true)) ∧
    ((Warn log cs (Arg0.str first) (a :: as)).errMsg =
       (Warn log cs (Arg0.str first) (a :: as)).msg ∧
     (Error log cs (Arg0.str first) (a :: as)).errMsg =
       (Error log cs (Arg0.str first) (a :: as)).msg) ∧
    (noPercent first = true →
      (Warn log cs (Arg0.str first) []).errMsg = (Warn log cs (Arg0.str first) []).msg ∧
      (Error log cs (Arg0.str first) []).errMsg = (Error log cs (Arg0.str first) []).msg) ∧
    ((Warn log cs (Arg0.cls f) args).errMsg = some (f ()) ∧
     (Warn log cs (Arg0.cls f) args).msg = some (f ()) ∧
     (Error log cs (Arg0.cls f) args).errMsg = some (f ()) ∧
     (Error log cs (Arg0.cls f) args).msg = some (f ())) ∧
    (noPercent (sprintVal v) = true →
      (Warn log cs (Arg0.other v) args).errMsg = (Warn log cs (Arg0.other v) args).msg ∧
      (Error log cs (Arg0.other v) args).errMsg = (Error log cs (Arg0.other v) args).msg) ∧
    (∀ e, Critical log cs arg0 args = some e →
      ∃ r, e.errMsg = some r ∧ e.msg = some (r ++ '\n' :: cs 3)) := by
  refine ⟨⟨?_, ?_, ?_⟩, ⟨?_, ?_⟩, ?_, ⟨?_, ?_, ?_, ?_⟩, ?_, ?_⟩
  · cases arg0 <;> simp [Warn]
  · cases arg0 <;> simp [Error]
  · intro e he
    cases arg0 with
    | cls1 g =>
      cases args with
      | nil => simp [Critical] at he
      | cons b bs =>
        simp only [Critical, Option.some.injEq] at he
        rw [← he]
        rfl
    | str first2 =>
      simp only [Critical, Option.some.injEq] at he
      rw [← he]
      rfl
    | cls f2 =>
      simp only [Critical, Option.some.injEq] at he
      rw [← he]
      rfl
    | other v2 =>
      simp only [Critical, Option.some.injEq] at he
      rw [← he]
      rfl
  · simp [Warn, intLogfMsg]
  · simp [Error, intLogfMsg]
  · intro h
    constructor <;> simp [Warn, Error, intLogfMsg, sprintf_verbatim_of_noPercent first h]
  · simp [Warn]
  · simp [Warn, intLogfMsg, sprintf_s]
  · simp [Error]
  · simp [Error, intLogfMsg, sprintf_s]
  · intro h
    cases args with
    | nil =>
      constructor <;> simp [Warn, Error, intLogfMsg, repeatVfmt, sprintf]
    | cons b bs =>
      constructor <;>
        · simp [Warn, Error, intLogfMsg, sprintArg0]
          exact (sprintf_append_of_noPercent (sprintVal v) (repeatVfmt (bs.length + 1))
            (b :: bs) h).symm
  · intro e he
    cases arg0 with
    | cls1 g =>
      cases args with
      | nil => simp [Critical] at he
      | cons b bs =>
        simp only [Critical, Option.some.injEq] at he
        refine ⟨g b, ?_, ?_⟩ <;> rw [← he] <;> simp [intLogfMsg, sprintf_sns]
    | str first2 =>
      simp only [Critical, Option.some.injEq] at he
      refine ⟨sprintf first2 args, ?_, ?_⟩ <;> rw [← he] <;> simp [intLogfMsg, sprintf_sns]
    | cls f2 =>
      simp only [Critical, Option.some.injEq] at he
      refine ⟨f2 (), ?_, ?_⟩ <;> rw [← he] <;> simp [intLogfMsg, sprintf_sns]
    | other v2 =>
      simp only [Critical, Option.some.injEq] at he
      refine ⟨sprintVal v2 ++ sprintf (repeatVfmt args.length) args, ?_, ?_⟩ <;>
        rw [← he] <;> simp [intLogfMsg, sprintf_sns]

/-- Witness for C6 on a concrete verb-free print-style call. -/
theorem C6_error_return_witness :
    (Warn [] (fun _ => []) (Arg0.other (GoVal.vnat 3)) [GoVal.vnat 7]).errMsg =
    (Warn [] (fun _ => []) (Arg0.other (GoVal.vnat 3)) [GoVal.vnat 7]).msg :=
  ((C6_error_return [] (fun _ => []) [] (fun _ => []) (GoVal.vnat 3) (GoVal.vnat 7) [GoVal.vnat 7]
    [] (Arg0.other (GoVal.vnat 3))).2.2.2.2.1 (by decide)).1

theorem fileStep_unknown (join : List Char → List Char) (st : FileCfg × Nat) (p : XmlProp)
    (h1 : p.name ≠ "filename".toList) (h2 : p.name ≠ "format".toList)
    (h3 : p.name ≠ "maxlines".toList) (h4 : p.name ≠ "maxsize".toList)
    (h5 : p.name ≠ "daily".toList) (h6 : p.name ≠ "rotate".toList) :
    fileStep join st p = (st.1, st.2 + 1) := by
  simp only [fileStep, if_neg h1, if_neg h2, if_neg h3, if_neg h4, if_neg h5, if_neg h6]

theorem fileStep_preserves_file (join : List Char → List Char) (st : FileCfg × Nat) (p : XmlProp)
    (h : p.name ≠ "filename".toList) : ((fileStep join st p).1).file = (st.1).file := by
  simp only [fileStep, if_neg h]
  split_ifs <;> rfl

theorem file_foldl_no_filename (join : List Char → List Char) :
    ∀ (props : List XmlProp) (st : FileCfg × Nat),
    (∀ p ∈ props, p.name ≠ "filename".toList) →
    ((props.foldl (fileStep join) st).1).file = (st.1).file := by
  intro props
  induction props with
  | nil => intro st h; rfl
  | cons p rest ih =>
    intro st h
    rw [List.foldl_cons]
    rw [ih (fileStep join st p) (fun q hq => h q (List.mem_cons_of_mem p hq))]
    exact fileStep_preserves_file join st p (h p (List.mem_cons_self p rest))

theorem sockStep_preserves_endpoint (st : SockCfg × Nat) (p : XmlProp)
    (h : p.name ≠ "endpoint".toList) : ((sockStep st p).1).endpoint = (st.1).endpoint := by
  simp only [sockStep, if_neg h]
  split_ifs <;> rfl

theorem sock_foldl_no_endpoint :
    ∀ (props : List XmlProp) (st : SockCfg × Nat),
    (∀ p ∈ props, p.name ≠ "endpoint".toList) →
    ((props.foldl sockStep st).1).endpoint = (st.1).endpoint := by
  intro props
  induction props with
  | nil => intro st h; rfl
  | cons p rest ih =>
    intro st h
    rw [List.foldl_cons]
    rw [ih (sockStep st p) (fun q hq => h q (List.mem_cons_of_mem p hq))]
    exact sockStep_preserves_endpoint st p (h p (List.mem_cons_self p rest))

theorem xmlFileStep_preserves_file (join : List Char → List Char) (st : XmlFileCfg × Nat)
    (p : XmlProp) (h : p.name ≠ "filename".toList) :
    ((xmlFileStep join st p).1).file = (st.1).file := by
  simp only [xmlFileStep, if_neg h]
  split_ifs <;> rfl

theorem xmlFile_foldl_no_filename (join : List Char → List Char) :
    ∀ (props : List XmlProp) (st : XmlFileCfg × Nat),
    (∀ p ∈ props, p.name ≠ "filename".toList) →
    ((props.foldl (xmlFileStep join) st).1).file = (st.1).file := by
  intro props
  induction props with
  | nil => intro st h; rfl
  | cons p rest ih =>
    intro st h
    rw [List.foldl_cons]
    rw [ih (xmlFileStep join st p) (fun q hq => h q (List.mem_cons_of_mem p hq))]
    exact xmlFileStep_preserves_file join st p (h p (List.mem_cons_self p rest))

theorem xmlToFileLogWriter_no_filename (join : List Char → List Char)
    (ex : List (List Char)) (props : List XmlProp) (enabled : Bool)
    (h : ∀ p ∈ props, p.name ≠ "filename".toList) :
    (xmlToFileLogWriter join ex props enabled).1 = none ∧
    (xmlToFileLogWriter join ex props enabled).2.1 = false := by
  have hf := file_foldl_no_filename join props
    (⟨[], "[%D %T] [%L] (%S) %M".toList, 0, 0, false, false⟩, 0) h
  simp only [xmlToFileLogWriter]
  rw [if_pos hf]
  exact ⟨rfl, rfl⟩

theorem xmlToXMLLogWriter_no_filename (join : List Char → List Char)
    (ex : List (List Char)) (props : List XmlProp) (enabled : Bool)
    (h : ∀ p ∈ props, p.name ≠ "filename".toList) :
    (xmlToXMLLogWriter join ex props enabled).1 = none ∧
    (xmlToXMLLogWriter join ex props enabled).2.1 = false := by
  have hf := xmlFile_foldl_no_filename join props (⟨[], 0, 0, false, false⟩, 0) h
  simp only [xmlToXMLLogWriter]
  rw [if_pos hf]
  exact ⟨rfl, rfl⟩

theorem xmlToSocketLogWriter_no_endpoint (ex : List (List Char))
    (props : List XmlProp) (enabled : Bool)
    (h : ∀ p ∈ props, p.name ≠ "endpoint".toList) :
    (xmlToSocketLogWriter ex props enabled).1 = none ∧
    (xmlToSocketLogWriter ex props enabled).2.1 = false := by
  have hf := sock_foldl_no_endpoint props (⟨[], "udp".toList⟩, 0) h
  simp only [xmlToSocketLogWriter]
  rw [if_pos hf]
  exact ⟨rfl, rfl⟩

theorem xmlToFileLogWriter_unknown_prop (join : List Char → List Char)
    (ex : List (List Char)) (props : List XmlProp) (enabled : Bool) (p : XmlProp)
    (h1 : p.name ≠ "filename".toList) (h2 : p.name ≠ "format".toList)
    (h3 : p.name ≠ "maxlines".toList) (h4 : p.name ≠ "maxsize".toList)
    (h5 : p.name ≠ "daily".toList) (h6 : p.name ≠ "rotate".toList) :
    xmlToFileLogWriter join ex (props ++ [p]) enabled =
      ((xmlToFileLogWriter join ex props enabled).1,
       (xmlToFileLogWriter join ex props enabled).2.1,
       (xmlToFileLogWriter join ex props enabled).2.2 + 1) := by
  simp only [xmlToFileLogWriter, List.foldl_append, List.foldl_cons, List.foldl_nil]
  rw [fileStep_unknown join _ p h1 h2 h3 h4 h5 h6]
  dsimp only
  split_ifs <;> rfl

theorem builders_disabled_no_writer (join : List Char → List Char) (ex : List (List Char))
    (props : List XmlProp) :
    (xmlToConsoleLogWriter ex props false).1 = none ∧
    (xmlToFileLogWriter join ex props false).1 = none ∧
    (xmlToXMLLogWriter join ex props false).1 = none ∧
    (xmlToSocketLogWriter ex props false).1 = none := by
  refine ⟨rfl, ?_, ?_, ?_⟩ <;>
    · simp only [xmlToFileLogWriter, xmlToXMLLogWriter, xmlToSocketLogWriter]
      split_ifs <;> simp_all

theorem processFilter_disabled_not_added (join : List Char → List Char) (xf : XmlFilt)
    (hEn : xf.enabled = "false".toList) (t : List Char) (l : Level)
    (w : Option BuiltWriter) (ex : List (List Char)) :
    processFilter join xf ≠ FilterOutcome.added t l w ex := by
  have hlen : ¬(xf.enabled.length = 0) := by rw [hEn]; decide
  have henb : (xf.enabled != "false".toList) = false := by rw [hEn]; simp
  intro hcon
  simp only [processFilter, if_neg hlen, henb, Bool.not_false, if_true] at hcon
  split at hcon
  · exact FilterOutcome.noConfusion hcon
  · split at hcon
    · exact FilterOutcome.noConfusion hcon
    · split at hcon
      · exact FilterOutcome.noConfusion hcon
      · exact FilterOutcome.noConfusion hcon

theorem processFilter_file_missing_fatal (join : List Char → List Char) (xf : XmlFilt)
    (hlvl : (convertLevel xf.level).2 = false) (htyp : xf.typ = "file".toList)
    (hprops : ∀ q ∈ xf.props, q.name ≠ "filename".toList) :
    processFilter join xf = FilterOutcome.fatal := by
  have hg : ∀ e, (xmlToFileLogWriter join xf.excludes xf.props e).2.1 = false :=
    fun e => (xmlToFileLogWriter_no_filename join xf.excludes xf.props e hprops).2
  simp only [processFilter, hlvl, htyp, hg, Bool.not_false, if_true, Bool.false_eq_true,
    if_false]
  simp

/-- C7 counterexample: a filter that is explicitly disabled and lacks the
required filename property is still process-fatal (the required-property
check in the builder runs before the disabled check, and the loader exits
on a builder failure), whereas the claim says a missing required property
is fatal only when the filter is enabled.  The same disabled filter with
a complete property set is merely skipped. -/
theorem C7_counterexample :
    processFilter (fun s => s)
      ⟨"false".toList, ['a'], "DEBUG".toList, "file".toList, [], []⟩ =
      FilterOutcome.fatal ∧
    processFilter (fun s => s)
      ⟨"false".toList, ['a'], "DEBUG".toList, "console".toList, [], []⟩ =
      FilterOutcome.skipped := by
  constructor <;> decide

/-- C7 (amended): unknown writer properties only add a warning and leave
the builder's writer and success flag unchanged (the console builder
warns on every property and always succeeds); a missing required
property (filename for the file and xml builders, endpoint for the
socket builder) fails the builder — and hence is process-fatal — for
both values of the enabled flag, not only when enabled; a disabled
filter is syntax-checked but never added to the logger, and no writer is
instantiated for it. -/
theorem C7_config_properties (join : List Char → List Char) (ex : List (List Char))
    (props : List XmlProp) (enabled : Bool) (p : XmlProp) (xf : XmlFilt)
    (t : List Char) (l : Level) (w : Option BuiltWriter) (exc : List (List Char)) :
    ((p.name ≠ "filename".toList → p.name ≠ "format".toList → p.name ≠ "maxlines".toList →
      p.name ≠ "maxsize".toList → p.name ≠ "daily".toList → p.name ≠ "rotate".toList →
      xmlToFileLogWriter join ex (props ++ [p]) enabled =
        ((xmlToFileLogWriter join ex props enabled).1,
         (xmlToFileLogWriter join ex props enabled).2.1,
         (xmlToFileLogWriter join ex props enabled).2.2 + 1)) ∧
     (xmlToConsoleLogWriter ex props enabled).2.1 = true) ∧
    ((∀ q ∈ props, q.name ≠ "filename".toList) →
      (xmlToFileLogWriter join ex props enabled).2.1 = false ∧
      (xmlToXMLLogWriter join ex props enabled).2.1 = false) ∧
    ((∀ q ∈ props, q.name ≠ "endpoint".toList) →
      (xmlToSocketLogWriter ex props enabled).2.1 = false) ∧
    ((convertLevel xf.level).2 = false → xf.typ = "file".toList →
      (∀ q ∈ xf.props, q.name ≠ "filename".toList) →
      processFilter join xf = FilterOutcome.fatal) ∧
    (xf.enabled = "false".toList → processFilter join xf ≠ FilterOutcome.added t l w exc) ∧
    ((xmlToFileLogWriter join ex props false).1 = none ∧
     (xmlToXMLLogWriter join ex props false).1 = none ∧
     (xmlToSocketLogWriter ex props false).1 = none ∧
     (xmlToConsoleLogWriter ex props false).1 = none) := by
  refine ⟨⟨?_, ?_⟩, ?_, ?_, ?_, ?_, ?_, ?_, ?_, ?_⟩
  · intro h1 h2 h3 h4 h5 h6
    exact xmlToFileLogWriter_unknown_prop join ex props enabled p h1 h2 h3 h4 h5 h6
  · cases enabled <;> rfl
  · intro h
    exact ⟨(xmlToFileLogWriter_no_filename join ex props enabled h).2,
      (xmlToXMLLogWriter_no_filename join ex props enabled h).2⟩
  · intro h
    exact (xmlToSocketLogWriter_no_endpoint ex props enabled h).2
  · intro hlvl htyp hprops
    exact processFilter_file_missing_fatal join xf hlvl htyp hprops
  · intro hEn
    exact processFilter_disabled_not_added join xf hEn t l w exc
  · exact (builders_disabled_no_writer join ex props).2.1
  · exact (builders_disabled_no_writer join ex props).2.2.1
  · exact (builders_disabled_no_writer join ex props).2.2.2
  · exact (builders_disabled_no_writer join ex props).1

/-- Witness for C7 at a concrete disabled filter element. -/
theorem C7_config_properties_witness :
    processFilter (fun s => s)
      ⟨"false".toList, ['a'], "DEBUG".toList, "console".toList, [], []⟩ ≠
      FilterOutcome.added ['a'] DEBUG (some BuiltWriter.console) [] :=
  (C7_config_properties (fun s => s) [] [] false ⟨"zz".toList, []⟩
      ⟨"false".toList, ['a'], "DEBUG".toList, "console".toList, [], []⟩
      ['a'] DEBUG (some BuiltWriter.console) []).2.2.2.2.1 rfl

/-- C8: `convertLevel` accepts exactly the nine named level identifiers,
mapping each to its Level constant, and flags every other string as bad;
a bad level makes configuration loading process-fatal for the filter
element carrying it. -/
theorem C8_convertLevel :
    (∀ s : List Char, (convertLevel s).2 = false ↔
      (s = "ACCESS".toList ∨ s = "FINEST".toList ∨ s = "FINE".toList ∨ s = "DEBUG".toList ∨
       s = "TRACE".toList ∨ s = "INFO".toList ∨ s = "WARNING".toList ∨ s = "ERROR".toList ∨
       s = "CRITICAL".toList)) ∧
    (convertLevel ("ACCESS".toList) = (ACCESS, false) ∧
     convertLevel ("FINEST".toList) = (FINEST, false) ∧
     convertLevel ("FINE".toList) = (FINE, false) ∧
     convertLevel ("DEBUG".toList) = (DEBUG, false) ∧
     convertLevel ("TRACE".toList) = (TRACE, false) ∧
     convertLevel ("INFO".toList) = (INFO, false) ∧
     convertLevel ("WARNING".toList) = (WARNING, false) ∧
     convertLevel ("ERROR".toList) = (ERROR, false) ∧
     convertLevel ("CRITICAL".toList) = (CRITICAL, false)) ∧
    (∀ (join : List Char → List Char) (xf : XmlFilt), (convertLevel xf.level).2 = true →
      processFilter join xf = FilterOutcome.fatal) := by
  refine ⟨?_, by decide, ?_⟩
  · intro s
    unfold convertLevel
    split_ifs with h1 h2 h3 h4 h5 h6 h7 h8 h9 <;> simp_all
  · intro join xf h
    simp [processFilter, h]

/-- Witness for C8 at a concrete unknown level name. -/
theorem C8_convertLevel_witness :
    processFilter (fun s => s)
      ⟨"true".toList, ['a'], "BOGUS".toList, "file".toList, [], []⟩ =
      FilterOutcome.fatal :=
  C8_convertLevel.2.2 (fun s => s)
    ⟨"true".toList, ['a'], "BOGUS".toList, "file".toList, [], []⟩ (by decide)

theorem load_foldl_none (join : List Char → List Char) :
    ∀ xc : List XmlFilt, xc.foldl (loadConfigStep join) none = none := by
  intro xc
  induction xc with
  | nil => rfl
  | cons xf rest ih =>
    rw [List.foldl_cons]
    exact ih

theorem load_foldl_tags (join : List Char → List Char) :
    ∀ (xc : List XmlFilt) (st : Option Logger) (L : Logger) (t : List Char),
    xc.foldl (loadConfigStep join) st = some L →
    logLookup L t ≠ none →
    (∃ log0, st = some log0 ∧ logLookup log0 t ≠ none) ∨
      ∃ xf ∈ xc, ∃ l w exc, processFilter join xf = FilterOutcome.added t l w exc := by
  intro xc
  induction xc with
  | nil =>
    intro st L t hfold hlook
    left
    exact ⟨L, hfold, hlook⟩
  | cons xf rest ih =>
    intro st L t hfold hlook
    rw [List.foldl_cons] at hfold
    match st with
    | none =>
      rw [show loadConfigStep join none xf = none from rfl, load_foldl_none join rest] at hfold
      exact absurd hfold (by simp)
    | some log0 =>
      cases hout : processFilter join xf with
      | fatal =>
        have hstep : loadConfigStep join (some log0) xf = none := by
          simp [loadConfigStep, hout]
        rw [hstep, load_foldl_none join rest] at hfold
        exact absurd hfold (by simp)
      | skipped =>
        have hstep : loadConfigStep join (some log0) xf = some log0 := by
          simp [loadConfigStep, hout]
        rw [hstep] at hfold
        rcases ih (some log0) L t hfold hlook with ⟨log1, heq, hlk⟩ | ⟨xf2, hmem, hr⟩
        · left
          obtain rfl : log0 = log1 := Option.some.inj heq
          exact ⟨log0, rfl, hlk⟩
        · right
          exact ⟨xf2, List.mem_cons_of_mem xf hmem, hr⟩
      | added t2 l2 w2 ex2 =>
        have hstep : loadConfigStep join (some log0) xf =
            some (logInsert log0 t2 ⟨l2, w2, ex2⟩) := by
          simp [loadConfigStep, hout]
        rw [hstep] at hfold
        rcases ih _ L t hfold hlook with ⟨log1, heq, hlk⟩ | ⟨xf2, hmem, hr⟩
        · obtain rfl : logInsert log0 t2 ⟨l2, w2, ex2⟩ = log1 := Option.some.inj heq
          by_cases ht : t2 = t
          · right
            exact ⟨xf, List.mem_cons_self xf rest, l2, w2, ex2, ht ▸ hout⟩
          · left
            refine ⟨log0, rfl, ?_⟩
            simpa [logLookup, logInsert, List.find?_cons, ht] using hlk
        · right
          exact ⟨xf2, List.mem_cons_of_mem xf hmem, hr⟩

/-- C9: loading a configuration closes every writer of the previous
logger state first, the resulting state is independent of the previous
filters, and every tag present afterwards was introduced by one of the
newly declared filter elements — no previous filter survives a reload
unless re-declared. -/
theorem C9_load_replaces (join : List Char → List Char) (log log2 : Logger)
    (xc : List XmlFilt) :
    (LoadConfiguration join log xc).2 = log.map (fun p => p.2.writer) ∧
    (LoadConfiguration join log xc).1 = (LoadConfiguration join log2 xc).1 ∧
    (∀ t newLog, (LoadConfiguration join log xc).1 = some newLog →
      logLookup newLog t ≠ none →
      ∃ xf ∈ xc, ∃ l w exc, processFilter join xf = FilterOutcome.added t l w exc) := by
  refine ⟨rfl, rfl, ?_⟩
  intro t newLog hload hlook
  rcases load_foldl_tags join xc (some []) newLog t hload hlook with ⟨log0, heq, hlk⟩ | h
  · obtain rfl : ([] : Logger) = log0 := Option.some.inj heq
    exact absurd rfl hlk
  · exact h

/-- Witness for C9 on a one-element configuration. -/
theorem C9_load_replaces_witness :
    ∃ xf ∈ [(⟨"true".toList, ['a'], "DEBUG".toList, "console".toList, [], []⟩ : XmlFilt)],
      ∃ l w exc, processFilter (fun s => s) xf = FilterOutcome.added ['a'] l w exc :=
  (C9_load_replaces (fun s => s) [] []
      [⟨"true".toList, ['a'], "DEBUG".toList, "console".toList, [], []⟩]).2.2
    ['a'] [(['a'], ⟨DEBUG, some BuiltWriter.console, []⟩)] (by decide) (by decide)

end Log4go
